import Mathlib

/-!
Shallow embedding of the load-testing engine in `machine_gun.py`
(class `MachineGun`): the per-request statistics accumulator mutated by
`make_request`, the summary computation of `print_stats` (numpy mean, min,
max and linear-interpolation 95th percentile), the per-strategy burst
arithmetic, and event-trace models of the dispatch/await structure of the
five attack coroutines.

Latencies are modelled as rationals; Python dict `self.stats` becomes the
structure `Stats`; an attempted request's outcome at the transport level is
`RequestResult` (an HTTP response with any status, or a raised transport
exception caught by the `except` branch).
-/

namespace MachineGun

/-- The transport-level result of one attempted HTTP request, as seen by the
body of `make_request`: either a response (any status code, with body text)
or an exception raised inside the `try` block (connection refused, timeout,
DNS failure, protocol error), which the `except Exception` branch catches. -/
inductive RequestResult where
  | response (status : Nat) (latency : ℚ) (content : String)
  | failure (latency : ℚ) (err : String)
deriving DecidableEq

/-- One entry of `self.stats["errors"]`: an HTTP-error entry records the
status, an exception entry records the stringified exception. -/
structure ErrorEntry where
  status : Option Nat
  err : Option String
  endpoint : String
deriving DecidableEq

/-- The mutable `self.stats` dictionary of `MachineGun.__init__`. -/
structure Stats where
  total_requests : Nat
  successful_requests : Nat
  failed_requests : Nat
  response_times : List ℚ
  errors : List ErrorEntry
deriving DecidableEq

/-- `self.stats` as initialised in `MachineGun.__init__`. -/
def initStats : Stats :=
  { total_requests := 0
    successful_requests := 0
    failed_requests := 0
    response_times := []
    errors := [] }

/-- The dictionary returned by `make_request`: `status`, `response_time` and
`content` on the response path, `error` and `response_time` on the
exception path. -/
structure Outcome where
  status : Option Nat
  response_time : ℚ
  content : Option String
  err : Option String
deriving DecidableEq

/-- `MachineGun.make_request` (lines 40-77): on a response, increments
`total_requests`, then `successful_requests` when `status < 400` or else
`failed_requests` plus an error entry, then appends the elapsed time to
`response_times` and returns the status dictionary; on a caught exception,
increments `total_requests` and `failed_requests`, appends an error entry
(no response time is appended) and returns the error dictionary. -/
def make_request (endpoint : String) (r : RequestResult) (s : Stats) :
    Stats × Outcome :=
  match r with
  | .response status lat content =>
      let s1 := { s with total_requests := s.total_requests + 1 }
      let s2 :=
        if status < 400 then
          { s1 with successful_requests := s1.successful_requests + 1 }
        else
          { s1 with failed_requests := s1.failed_requests + 1
                    errors := s1.errors ++ [⟨some status, none, endpoint⟩] }
      let s3 := { s2 with response_times := s2.response_times ++ [lat] }
      (s3, ⟨some status, lat, some content, none⟩)
  | .failure lat e =>
      ({ s with total_requests := s.total_requests + 1
                failed_requests := s.failed_requests + 1
                errors := s.errors ++ [⟨none, some e, endpoint⟩] },
       ⟨none, lat, none, some e⟩)

/-- Whether an attempted request reached an HTTP response (of any status),
as opposed to raising a transport-level exception. -/
def isResponse : RequestResult → Bool
  | .response _ _ _ => true
  | .failure _ _ => false

/-- Fold a sequence of request attempts (endpoint, transport result)
through `make_request`, starting from a given statistics state. -/
def runStatsFrom (s : Stats) (rs : List (String × RequestResult)) : Stats :=
  rs.foldl (fun acc p => (make_request p.1 p.2 acc).1) s

/-- The statistics accumulated by a run that performs the given sequence of
request attempts, starting from the freshly initialised state. -/
def runStats (rs : List (String × RequestResult)) : Stats :=
  runStatsFrom initStats rs

lemma make_request_total (ep : String) (r : RequestResult) (s : Stats) :
    ((make_request ep r s).1).total_requests = s.total_requests + 1 := by
  cases r with
  | response status lat content =>
      simp only [make_request]
      split <;> rfl
  | failure lat e => rfl

lemma make_request_succ_failed (ep : String) (r : RequestResult) (s : Stats) :
    ((make_request ep r s).1).successful_requests +
      ((make_request ep r s).1).failed_requests =
    s.successful_requests + s.failed_requests + 1 := by
  cases r with
  | response status lat content =>
      simp only [make_request]
      split <;> dsimp <;> omega
  | failure lat e =>
      simp only [make_request]
      omega

lemma make_request_rt_length (ep : String) (r : RequestResult) (s : Stats) :
    ((make_request ep r s).1).response_times.length =
      s.response_times.length + (if isResponse r then 1 else 0) := by
  cases r with
  | response status lat content =>
      simp only [make_request, isResponse, if_pos]
      split <;> simp
  | failure lat e => simp [make_request, isResponse]

lemma runStatsFrom_total (s : Stats) (rs : List (String × RequestResult)) :
    (runStatsFrom s rs).total_requests = s.total_requests + rs.length := by
  induction rs generalizing s with
  | nil => simp [runStatsFrom]
  | cons p t ih =>
      simp only [runStatsFrom, List.foldl_cons, List.length_cons] at *
      rw [ih, make_request_total]
      omega

lemma runStatsFrom_succ_failed (s : Stats) (rs : List (String × RequestResult)) :
    (runStatsFrom s rs).successful_requests + (runStatsFrom s rs).failed_requests =
      s.successful_requests + s.failed_requests + rs.length := by
  induction rs generalizing s with
  | nil => simp [runStatsFrom]
  | cons p t ih =>
      simp only [runStatsFrom, List.foldl_cons, List.length_cons] at *
      rw [ih, make_request_succ_failed]
      omega

lemma runStatsFrom_rt_length (s : Stats) (rs : List (String × RequestResult)) :
    (runStatsFrom s rs).response_times.length =
      s.response_times.length + rs.countP (fun p => isResponse p.2) := by
  induction rs generalizing s with
  | nil => simp [runStatsFrom]
  | cons p t ih =>
      simp only [runStatsFrom, List.foldl_cons] at *
      rw [ih, make_request_rt_length, List.countP_cons]
      cases h : isResponse p.2 <;> simp [h] <;> omega

/-- C1 (amended): after any sequence of `make_request` calls, in any order,
`total_requests == successful_requests + failed_requests` holds; but
`len(response_times)` equals the number of calls that ended in an HTTP
response, not `total_requests` — the exception branch does not append a
latency. -/
theorem c1_totals_invariant_latency_counts_responses
    (rs : List (String × RequestResult)) :
    (runStats rs).total_requests =
        (runStats rs).successful_requests + (runStats rs).failed_requests ∧
    (runStats rs).response_times.length =
        rs.countP (fun p => isResponse p.2) := by
  constructor
  · have h1 := runStatsFrom_total initStats rs
    have h2 := runStatsFrom_succ_failed initStats rs
    simp only [show initStats.total_requests = 0 from rfl,
      show initStats.successful_requests = 0 from rfl,
      show initStats.failed_requests = 0 from rfl] at h1 h2
    simp only [runStats]
    omega
  · have h3 := runStatsFrom_rt_length initStats rs
    simp only [show initStats.response_times = ([] : List ℚ) from rfl,
      List.length_nil] at h3
    simp only [runStats]
    omega

/-- C1 counterexample: a single transport-level failure leaves
`total_requests = 1` but `response_times` empty, so
`len(latencies) == total` fails after that call. -/
theorem c1_counterexample :
    ¬ ((runStats [("/slow-endpoint", .failure 1 "ConnectionRefusedError")]).response_times.length
        = (runStats [("/slow-endpoint", .failure 1 "ConnectionRefusedError")]).total_requests) := by
  decide

/-- The sorted latency sample that numpy's order statistics operate on. -/
def sortedQ (xs : List ℚ) : List ℚ := xs.insertionSort (· ≤ ·)

/-- `np.min(response_times)`: the first element of the sorted sample
(the default 0 is never reached on the non-empty samples `print_stats`
feeds it). -/
def npMin (xs : List ℚ) : ℚ := (sortedQ xs).getD 0 0

/-- `np.max(response_times)`: the last element of the sorted sample. -/
def npMax (xs : List ℚ) : ℚ := (sortedQ xs).getD (xs.length - 1) 0

/-- `np.mean(response_times)`. -/
def npMean (xs : List ℚ) : ℚ := xs.sum / (xs.length : ℚ)

/-- The fractional rank `(n - 1) * q / 100` at which
`np.percentile(xs, q)` reads the sorted sample. -/
def percPos (q : ℚ) (n : Nat) : ℚ := ((n : ℚ) - 1) * q / 100

/-- The integer part of the fractional rank (the lower of the two sorted
elements that `np.percentile` interpolates between). -/
def percIdx (q : ℚ) (n : Nat) : Nat := ⌊percPos q n⌋₊

/-- `np.percentile(xs, q)` with numpy's default linear interpolation on the
sorted sample: with `h = (n-1)*q/100` and `i = floor h`, the result is
`s[i] + (h - i) * (s[i+1] - s[i])` (when `i` is the top index the
fractional part is zero and the upper neighbour is irrelevant, modelled by
defaulting it to `s[i]`). -/
def npPercentile (q : ℚ) (xs : List ℚ) : ℚ :=
  if xs.length = 0 then 0
  else
    (sortedQ xs).getD (percIdx q xs.length) 0 +
      (percPos q xs.length - (percIdx q xs.length : ℚ)) *
        ((sortedQ xs).getD (percIdx q xs.length + 1)
            ((sortedQ xs).getD (percIdx q xs.length) 0) -
          (sortedQ xs).getD (percIdx q xs.length) 0)

/-- The figures `print_stats` prints when the sample is non-empty. -/
structure Report where
  total : Nat
  successful : Nat
  failed : Nat
  success_rate : ℚ
  avg_rt : ℚ
  min_rt : ℚ
  max_rt : ℚ
  p95_rt : ℚ
  recent_errors : List ErrorEntry
deriving DecidableEq

/-- `MachineGun.print_stats` (lines 220-243): with an empty
`response_times` it prints only "No requests completed" and returns at
once, emitting no counts, rate or statistics (modelled as `none`);
otherwise it prints the totals, the success rate
`successful / total * 100`, the numpy mean, min, max and 95th percentile
of the latencies, and the last five error entries. -/
def print_stats (s : Stats) : Option Report :=
  if s.response_times.isEmpty then none
  else some
    { total := s.total_requests
      successful := s.successful_requests
      failed := s.failed_requests
      success_rate := (s.successful_requests : ℚ) / (s.total_requests : ℚ) * 100
      avg_rt := npMean s.response_times
      min_rt := npMin s.response_times
      max_rt := npMax s.response_times
      p95_rt := npPercentile 95 s.response_times
      recent_errors := s.errors.drop (s.errors.length - 5) }

lemma print_stats_of_rt_nil (s : Stats) (h : s.response_times = []) :
    print_stats s = none := by
  simp [print_stats, h]

/-- C5 counterexample: on the freshly initialised statistics (zero
outcomes recorded) `print_stats` takes the early-return branch and emits
no report at all, so in particular it does not return a success rate of
0. -/
theorem c5_counterexample :
    ¬ ∃ r : Report, print_stats (runStats []) = some r ∧ r.success_rate = 0 := by
  simp [print_stats, runStats, runStatsFrom, initStats]

/-- C5 (amended): whenever no latency has been recorded — in particular
after zero outcomes — `print_stats` is defined and returns the
"No requests completed" early exit (`none`): it never raises and computes
no statistic, not even a success rate. -/
theorem c5_empty_sample_no_report (s : Stats) (h : s.response_times = []) :
    print_stats s = none :=
  print_stats_of_rt_nil s h

/-- C5 witness: the amended statement at the initial state. -/
theorem c5_witness : print_stats initStats = none :=
  c5_empty_sample_no_report initStats rfl

/-- C10: when every attempted request fails at the transport level, the
run records `total_requests = rs.length > 0` failures, yet `print_stats`
hits the empty-`response_times` early return and reports nothing — no
counts and no error details. -/
theorem c10_all_failures_report_nothing (rs : List (String × RequestResult))
    (hne : rs ≠ []) (hall : ∀ p ∈ rs, isResponse p.2 = false) :
    (runStats rs).total_requests = rs.length ∧
    0 < (runStats rs).total_requests ∧
    print_stats (runStats rs) = none := by
  have htot : (runStats rs).total_requests = rs.length := by
    have := runStatsFrom_total initStats rs
    simpa [runStats, show initStats.total_requests = 0 from rfl] using this
  have hlen : (runStats rs).response_times.length = 0 := by
    have h3 := runStatsFrom_rt_length initStats rs
    have hc : rs.countP (fun p => isResponse p.2) = 0 := by
      rw [List.countP_eq_zero]
      intro p hp
      simp [hall p hp]
    simp [runStats, show initStats.response_times = ([] : List ℚ) from rfl, hc] at h3
    simp [runStats]
    exact h3
  refine ⟨htot, ?_, ?_⟩
  · rw [htot]
    exact List.length_pos.mpr hne
  · exact print_stats_of_rt_nil _ (List.length_eq_zero.mp hlen)

/-- C10 witness: a run of two transport failures yields positive totals
and an empty report. -/
theorem c10_witness :
    (runStats [("/a", .failure 1 "TimeoutError"), ("/b", .failure 2 "ClientConnectorError")]).total_requests = 2 ∧
    0 < (runStats [("/a", .failure 1 "TimeoutError"), ("/b", .failure 2 "ClientConnectorError")]).total_requests ∧
    print_stats (runStats [("/a", .failure 1 "TimeoutError"), ("/b", .failure 2 "ClientConnectorError")]) = none := by
  have h := c10_all_failures_report_nothing
    [("/a", .failure 1 "TimeoutError"), ("/b", .failure 2 "ClientConnectorError")]
    (by decide) (by decide)
  simpa using h

lemma sortedQ_sorted (xs : List ℚ) : (sortedQ xs).Sorted (· ≤ ·) :=
  List.sorted_insertionSort _ xs

lemma sortedQ_perm (xs : List ℚ) : List.Perm (sortedQ xs) xs :=
  List.perm_insertionSort _ xs

lemma sortedQ_length (xs : List ℚ) : (sortedQ xs).length = xs.length :=
  (sortedQ_perm xs).length_eq

lemma sortedQ_getD_mono (xs : List ℚ) {i j : Nat} (hij : i ≤ j)
    (hj : j < xs.length) : (sortedQ xs).getD i 0 ≤ (sortedQ xs).getD j 0 := by
  have hj' : j < (sortedQ xs).length := by rw [sortedQ_length]; exact hj
  have hi' : i < (sortedQ xs).length := lt_of_le_of_lt hij hj'
  rw [List.getD_eq_get _ _ hi', List.getD_eq_get _ _ hj']
  exact (sortedQ_sorted xs).rel_get_of_le (Fin.mk_le_mk.mpr hij)

lemma npMin_le_of_mem {xs : List ℚ} {a : ℚ} (ha : a ∈ xs) : npMin xs ≤ a := by
  have ha' : a ∈ sortedQ xs := (sortedQ_perm xs).mem_iff.mpr ha
  obtain ⟨k, hk⟩ := List.mem_iff_get.mp ha'
  have hk1 : (sortedQ xs).getD k.1 0 = a := by
    rw [List.getD_eq_get _ _ k.2, Fin.eta]
    exact hk
  have hkl : (k : Nat) < xs.length := by
    have h2 := k.2
    have h3 := sortedQ_length xs
    omega
  have := sortedQ_getD_mono xs (Nat.zero_le k.1) hkl
  rw [hk1] at this
  exact this

lemma le_npMax_of_mem {xs : List ℚ} {a : ℚ} (ha : a ∈ xs) : a ≤ npMax xs := by
  have ha' : a ∈ sortedQ xs := (sortedQ_perm xs).mem_iff.mpr ha
  obtain ⟨k, hk⟩ := List.mem_iff_get.mp ha'
  have hk1 : (sortedQ xs).getD k.1 0 = a := by
    rw [List.getD_eq_get _ _ k.2, Fin.eta]
    exact hk
  have hkl : (k : Nat) < xs.length := by
    have h2 := k.2
    have h3 := sortedQ_length xs
    omega
  have hle : (k : Nat) ≤ xs.length - 1 := by omega
  have hlt : xs.length - 1 < xs.length := by omega
  have := sortedQ_getD_mono xs hle hlt
  rw [hk1] at this
  exact this

lemma npMin_le_npMean {xs : List ℚ} (h : xs ≠ []) : npMin xs ≤ npMean xs := by
  have hl : 0 < xs.length := List.length_pos.mpr h
  have hn : (0 : ℚ) < (xs.length : ℚ) := by exact_mod_cast hl
  rw [npMean, le_div_iff hn]
  have hsum := List.card_nsmul_le_sum xs (npMin xs) (fun x hx => npMin_le_of_mem hx)
  rw [nsmul_eq_mul] at hsum
  linarith

lemma npMean_le_npMax {xs : List ℚ} (h : xs ≠ []) : npMean xs ≤ npMax xs := by
  have hl : 0 < xs.length := List.length_pos.mpr h
  have hn : (0 : ℚ) < (xs.length : ℚ) := by exact_mod_cast hl
  rw [npMean, div_le_iff hn]
  have hsum := List.sum_le_card_nsmul xs (npMax xs) (fun x hx => le_npMax_of_mem hx)
  rw [nsmul_eq_mul] at hsum
  linarith

lemma percPos_nonneg {n : Nat} (hn : n ≠ 0) : 0 ≤ percPos 95 n := by
  have h1 : (1 : ℚ) ≤ (n : ℚ) := by exact_mod_cast Nat.one_le_iff_ne_zero.mpr hn
  rw [percPos]
  have : (0 : ℚ) ≤ (n : ℚ) - 1 := by linarith
  positivity

lemma percPos_le {n : Nat} (hn : n ≠ 0) : percPos 95 n ≤ (n : ℚ) - 1 := by
  have h1 : (1 : ℚ) ≤ (n : ℚ) := by exact_mod_cast Nat.one_le_iff_ne_zero.mpr hn
  rw [percPos, div_le_iff (by norm_num : (0:ℚ) < 100)]
  nlinarith

lemma percIdx_lt {n : Nat} (hn : n ≠ 0) : percIdx 95 n < n := by
  have h1 : 1 ≤ n := Nat.one_le_iff_ne_zero.mpr hn
  have hle : percPos 95 n ≤ ((n - 1 : Nat) : ℚ) := by
    have := percPos_le hn
    rwa [Nat.cast_sub h1, Nat.cast_one]
  have := Nat.floor_le_floor hle
  rw [Nat.floor_natCast] at this
  rw [percIdx]
  omega

lemma percIdx_cast_le {n : Nat} (hn : n ≠ 0) :
    (percIdx 95 n : ℚ) ≤ percPos 95 n := by
  rw [percIdx]
  exact Nat.floor_le (percPos_nonneg hn)

lemma percPos_lt_percIdx_add_one (n : Nat) :
    percPos 95 n < (percIdx 95 n : ℚ) + 1 := by
  rw [percIdx]
  exact Nat.lt_floor_add_one _

lemma npPercentile_bounds {xs : List ℚ} (h : xs ≠ []) :
    npMin xs ≤ npPercentile 95 xs ∧ npPercentile 95 xs ≤ npMax xs := by
  have hl : 0 < xs.length := List.length_pos.mpr h
  have hn : xs.length ≠ 0 := Nat.pos_iff_ne_zero.mp hl
  rw [npPercentile, if_neg hn]
  set i := percIdx 95 xs.length with hidef
  set lo := (sortedQ xs).getD i 0 with hlodef
  set hi := (sortedQ xs).getD (i + 1) lo with hhidef
  have hilt : i < xs.length := percIdx_lt hn
  have hfrac0 : 0 ≤ percPos 95 xs.length - (i : ℚ) := by
    have := percIdx_cast_le hn
    linarith
  have hfrac1 : percPos 95 xs.length - (i : ℚ) ≤ 1 := by
    have := percPos_lt_percIdx_add_one xs.length
    linarith
  have hminlo : npMin xs ≤ lo := by
    rw [npMin, hlodef]
    exact sortedQ_getD_mono xs (Nat.zero_le i) hilt
  have hlomax : lo ≤ npMax xs := by
    rw [npMax, hlodef]
    exact sortedQ_getD_mono xs (by omega) (by omega)
  have hlohi : lo ≤ hi := by
    by_cases hc : i + 1 < xs.length
    · rw [hhidef, hlodef]
      have hc' : i + 1 < (sortedQ xs).length := by rw [sortedQ_length]; exact hc
      rw [List.getD_eq_get _ _ hc', ← List.getD_eq_get _ 0 hc']
      exact sortedQ_getD_mono xs (Nat.le_succ i) hc
    · rw [hhidef, List.getD_eq_default _ _ (by rw [sortedQ_length]; omega)]
  have hhimax : hi ≤ npMax xs := by
    by_cases hc : i + 1 < xs.length
    · rw [hhidef, npMax]
      have hc' : i + 1 < (sortedQ xs).length := by rw [sortedQ_length]; exact hc
      rw [List.getD_eq_get _ _ hc', ← List.getD_eq_get _ 0 hc']
      exact sortedQ_getD_mono xs (by omega) (by omega)
    · rw [hhidef, List.getD_eq_default _ _ (by rw [sortedQ_length]; omega)]
      exact hlomax
  constructor
  · nlinarith [mul_nonneg hfrac0 (sub_nonneg.mpr hlohi)]
  · nlinarith [mul_nonneg (sub_nonneg.mpr hfrac1) (sub_nonneg.mpr hlohi)]

/-- C6 (amended): for any non-empty latency sample, the reported mean and
95th percentile both lie between the reported min and max
(`min <= mean <= max` and `min <= p95 <= max`); the claimed `p95 >= mean`
does not hold in general. -/
theorem c6_summary_stats_bounded (xs : List ℚ) (h : xs ≠ []) :
    npMin xs ≤ npMean xs ∧ npMean xs ≤ npMax xs ∧
    npMin xs ≤ npPercentile 95 xs ∧ npPercentile 95 xs ≤ npMax xs :=
  ⟨npMin_le_npMean h, npMean_le_npMax h,
    (npPercentile_bounds h).1, (npPercentile_bounds h).2⟩

/-- C6 witness: the amended bounds at the concrete sample with latencies
1, 2 and 4. -/
theorem c6_witness :
    npMin [(1:ℚ), 2, 4] ≤ npMean [(1:ℚ), 2, 4] ∧
    npMean [(1:ℚ), 2, 4] ≤ npMax [(1:ℚ), 2, 4] ∧
    npMin [(1:ℚ), 2, 4] ≤ npPercentile 95 [(1:ℚ), 2, 4] ∧
    npPercentile 95 [(1:ℚ), 2, 4] ≤ npMax [(1:ℚ), 2, 4] :=
  c6_summary_stats_bounded [(1:ℚ), 2, 4] (by simp)

/-- The latency sample refuting `p95 >= mean`: twenty instant responses
and one slow one. -/
def c6Sample : List ℚ := List.replicate 20 0 ++ [21]

/-- C6 counterexample: on the sample of twenty latencies 0 and one latency
21, numpy's linear-interpolation 95th percentile is 0 while the mean is 1,
so `p95 >= mean` fails for the statistics `print_stats` reports. -/
theorem c6_counterexample : npPercentile 95 c6Sample < npMean c6Sample := by
  have hl : c6Sample.length = 21 := by decide
  have hs : sortedQ c6Sample = List.replicate 20 0 ++ [21] := by decide
  have hp : percPos 95 21 = 19 := by rw [percPos]; norm_num
  have hi : percIdx 95 21 = 19 := by
    rw [percIdx, hp]
    norm_num
  have hg19 : (List.replicate 20 (0:ℚ) ++ [21]).getD 19 0 = 0 := by decide
  have hp95 : npPercentile 95 c6Sample = 0 := by
    rw [npPercentile, hl, if_neg (by norm_num), hi, hs, hg19, hp]
    norm_num
  have hsum : c6Sample.sum = 21 := by
    rw [c6Sample]
    simp
  have hmean : npMean c6Sample = 1 := by
    rw [npMean, hsum, hl]
    norm_num
  rw [hp95, hmean]
  norm_num

/-- C4: `make_request` wraps the whole attempt in `try/except Exception`:
any transport-level failure (connection refused, timeout, DNS failure,
protocol error) is caught and returned as a dictionary with no status code
and the stringified exception as the error description; the function is
total, so no exception reaches the calling strategy. -/
theorem c4_transport_failure_becomes_outcome
    (ep : String) (lat : ℚ) (e : String) (s : Stats) :
    (make_request ep (.failure lat e) s).2.status = none ∧
    (make_request ep (.failure lat e) s).2.err = some e ∧
    (make_request ep (.failure lat e) s).2.response_time = lat ∧
    (make_request ep (.failure lat e) s).2.content = none :=
  ⟨rfl, rfl, rfl, rfl⟩

/-- The inter-arrival interval `interval = 1.0 / rps` computed at the top
of `MachineGun.sustained_attack` (line 140); Python's division raises
`ZeroDivisionError` when `rps = 0`, modelled as `none`. The code performs
no parameter validation before the division. -/
def sustainedInterval (rps : Nat) : Option ℚ :=
  if rps = 0 then none else some (1 / (rps : ℚ))

/-- C3 counterexample: running the Sustained strategy with `rps = 0`
reaches the division `1.0 / rps` and raises `ZeroDivisionError`
(modelled as `none`) instead of yielding a run that issues no requests. -/
theorem c3_counterexample : sustainedInterval 0 = none := rfl

/-- C3 (amended): `sustained_attack` divides by `rps` with no prior
validation: `rps = 0` raises a `ZeroDivisionError` (rather than yielding
"no requests this tick"), and any nonzero `rps` yields the finite
interval `1 / rps`. -/
theorem c3_sustained_rps_zero_raises :
    sustainedInterval 0 = none ∧
    ∀ rps : Nat, rps ≠ 0 → sustainedInterval rps = some (1 / (rps : ℚ)) := by
  refine ⟨rfl, fun rps h => ?_⟩
  simp [sustainedInterval, h]

/-- C3 witness: the amended statement at `rps = 4`. -/
theorem c3_witness : sustainedInterval 4 = some (1 / (4 : ℚ)) :=
  c3_sustained_rps_zero_raises.2 4 (by decide)

/-- The per-burst request count `rps // 10` of the loop body of
`MachineGun.ddos_attack` (line 89). -/
def ddosBurstSize (rps : Nat) : Nat := rps / 10

/-- The number of requests a `ddos_attack` run dispatches over `ticks`
iterations of its while loop: each tick appends `rps // 10` tasks. -/
def ddosRequestCount (ticks rps : Nat) : Nat := ticks * ddosBurstSize rps

/-- C9: with `rps < 10` integer division makes the DDoS burst size
`rps // 10 = 0`, so every tick dispatches zero requests and a whole run of
any length issues none at all despite the positive `rps` parameter. -/
theorem c9_ddos_small_rps_issues_nothing (ticks rps : Nat) (h : rps < 10) :
    ddosBurstSize rps = 0 ∧ ddosRequestCount ticks rps = 0 := by
  have hb : ddosBurstSize rps = 0 := Nat.div_eq_of_lt h
  exact ⟨hb, by simp [ddosRequestCount, hb]⟩

/-- C9 witness: `rps = 9` over 100 ticks issues zero requests. -/
theorem c9_witness :
    ddosBurstSize 9 = 0 ∧ ddosRequestCount 100 9 = 0 :=
  c9_ddos_small_rps_issues_nothing 100 9 (by decide)

/-- The order of operations on the success path of `make_request`
(lines 43-48): record `start_time`, issue the request, receive the
response status and headers, compute `response_time`, then `await
response.text()` for the body, update the statistics, and build the
returned dictionary. -/
inductive ReqStep where
  | startTimer
  | sendRequest
  | recvStatus
  | measureElapsed
  | readBody
  | updateStats
  | buildResult
deriving DecidableEq, BEq

/-- The success-path operations of `make_request` in program order. -/
def makeRequestSteps : List ReqStep :=
  [.startTimer, .sendRequest, .recvStatus, .measureElapsed, .readBody,
    .updateStats, .buildResult]

/-- Position of an operation within the success path of `make_request`. -/
def stepIdx (s : ReqStep) : Nat := makeRequestSteps.indexOf s

/-- C8 counterexample: in `make_request` the elapsed time is computed at
line 47, before `await response.text()` at line 48, so the measurement is
not taken after the body read completes. -/
theorem c8_counterexample :
    ¬ stepIdx ReqStep.readBody < stepIdx ReqStep.measureElapsed := by
  decide

/-- C8 (amended): the recorded elapsed time spans from just before the
request is sent to just after the response status and headers arrive; the
response body is read only after the measurement is taken. -/
theorem c8_elapsed_measured_before_body_read :
    stepIdx ReqStep.startTimer < stepIdx ReqStep.sendRequest ∧
    stepIdx ReqStep.sendRequest < stepIdx ReqStep.recvStatus ∧
    stepIdx ReqStep.recvStatus < stepIdx ReqStep.measureElapsed ∧
    stepIdx ReqStep.measureElapsed < stepIdx ReqStep.readBody := by
  decide

lemma countP_replicate_true {α : Type} (p : α → Bool) (a : α) (h : p a = true)
    (n : Nat) : (List.replicate n a).countP p = n := by
  induction n with
  | zero => rfl
  | succ m ih => simp [List.replicate_succ, List.countP_cons, h, ih]

lemma runStats_replicate_response_length (n : Nat) :
    (runStats (List.replicate n ("/x", RequestResult.response 200 1 "ok"))).response_times.length
      = n := by
  have h3 := runStatsFrom_rt_length initStats
    (List.replicate n ("/x", RequestResult.response 200 1 "ok"))
  rw [countP_replicate_true _ _ rfl] at h3
  simpa [runStats, show initStats.response_times = ([] : List ℚ) from rfl] using h3

/-- C7 counterexample: the latency list kept by `make_request` is not
bounded by any cap: for every proposed bound `B`, a run of `B + 1`
completed requests stores `B + 1` latencies. -/
theorem c7_counterexample :
    ¬ ∃ B : Nat, ∀ rs : List (String × RequestResult),
        (runStats rs).response_times.length ≤ B := by
  rintro ⟨B, hB⟩
  have h := hB (List.replicate (B + 1) ("/x", RequestResult.response 200 1 "ok"))
  rw [runStats_replicate_response_length] at h
  omega

/-- C7 (amended): `self.stats["response_times"]` is a plain unbounded
list: every completed response appends one entry, so a run of `n`
responses stores exactly `n` latencies and the collection grows without
bound as requests accumulate. -/
theorem c7_latency_list_unbounded (n : Nat) :
    (runStats (List.replicate n ("/x", RequestResult.response 200 1 "ok"))).response_times.length
      = n :=
  runStats_replicate_response_length n

/-- Events of one strategy run: dispatching request `i`
(`self.make_request(...)` scheduled), awaiting its completion
(`asyncio.gather`), and printing the final report (`self.print_stats()`). -/
inductive Ev where
  | dispatch (i : Nat)
  | awaitDone (i : Nat)
  | report
deriving DecidableEq, BEq

/-- Extract a dispatch event's request id. -/
def dispatchId : Ev → Option Nat
  | .dispatch i => some i
  | _ => none

/-- Extract an await event's request id. -/
def awaitId : Ev → Option Nat
  | .awaitDone i => some i
  | _ => none

/-- The ids of all requests a run dispatches. -/
def dispatchedIds (tr : List Ev) : List Nat := tr.filterMap dispatchId

/-- The ids of the requests whose completion is awaited before the final
report is printed. -/
def resolvedBeforeReport (tr : List Ev) : List Nat :=
  (tr.takeWhile fun e => decide (e ≠ Ev.report)).filterMap awaitId

/-- A run drains before finalizing: every request it dispatched is awaited
before the report is printed. -/
def drainsBeforeReport (tr : List Ev) : Prop :=
  ∀ i ∈ dispatchedIds tr, i ∈ resolvedBeforeReport tr

/-- `ddos_attack` (lines 79-104): every tick appends its burst of
`rps // 10` dispatched coroutines to `tasks`; after the deadline one
`await asyncio.gather(*tasks)` resolves them all, and only then
`print_stats` runs. -/
def ddosTrace (ticks rps : Nat) : List Ev :=
  ((List.range (ddosRequestCount ticks rps)).map Ev.dispatch) ++
    ((List.range (ddosRequestCount ticks rps)).map Ev.awaitDone) ++ [Ev.report]

/-- One barrier tick: `c` requests (ids `off .. off+c-1`) dispatched
concurrently, then `await asyncio.gather(*tasks)` resolving them before
the loop proceeds. -/
def tickEvents (off c : Nat) : List Ev :=
  ((List.range c).map fun k => Ev.dispatch (off + k)) ++
    ((List.range c).map fun k => Ev.awaitDone (off + k))

/-- The per-tick barrier loop shared by `burst_attack`, `random_attack`
and `database_attack`: each tick gathers its own dispatches before the
next tick, and `print_stats` runs after the loop; `counts` lists the
per-tick dispatch counts (`burst_size` each tick for burst, the random
`current_rps` draws for random, 70 for database). -/
def barrierTraceAux : Nat → List Nat → List Ev
  | _, [] => [Ev.report]
  | off, c :: cs => tickEvents off c ++ barrierTraceAux (off + c) cs

/-- A whole barrier-strategy run starting at request id 0. -/
def barrierTrace (counts : List Nat) : List Ev := barrierTraceAux 0 counts

/-- `sustained_attack` (lines 135-159): each tick fire-and-forgets one
request via `asyncio.create_task` and never awaits it; after the deadline
`print_stats` runs with every dispatched task unresolved. -/
def sustainedTrace (n : Nat) : List Ev :=
  ((List.range n).map Ev.dispatch) ++ [Ev.report]

lemma filterMap_dispatchId_map_dispatch (l : List Nat) :
    (l.map Ev.dispatch).filterMap dispatchId = l := by
  induction l with
  | nil => rfl
  | cons a t ih => simp [dispatchId, ih]

lemma filterMap_dispatchId_map_await (l : List Nat) :
    (l.map Ev.awaitDone).filterMap dispatchId = [] := by
  induction l with
  | nil => rfl
  | cons a t ih => simp [dispatchId, ih]

lemma filterMap_awaitId_map_dispatch (l : List Nat) :
    (l.map Ev.dispatch).filterMap awaitId = [] := by
  induction l with
  | nil => rfl
  | cons a t ih => simp [awaitId, ih]

lemma filterMap_awaitId_map_await (l : List Nat) :
    (l.map Ev.awaitDone).filterMap awaitId = l := by
  induction l with
  | nil => rfl
  | cons a t ih => simp [awaitId, ih]

lemma filterMap_dispatchId_map_f (f : Nat → Nat) (l : List Nat) :
    (l.map fun k => Ev.dispatch (f k)).filterMap dispatchId = l.map f := by
  induction l with
  | nil => rfl
  | cons a t ih => simp [dispatchId, ih]

lemma filterMap_dispatchId_map_af (f : Nat → Nat) (l : List Nat) :
    (l.map fun k => Ev.awaitDone (f k)).filterMap dispatchId = [] := by
  induction l with
  | nil => rfl
  | cons a t ih => simp [dispatchId, ih]

lemma filterMap_awaitId_map_df (f : Nat → Nat) (l : List Nat) :
    (l.map fun k => Ev.dispatch (f k)).filterMap awaitId = [] := by
  induction l with
  | nil => rfl
  | cons a t ih => simp [awaitId, ih]

lemma filterMap_awaitId_map_f (f : Nat → Nat) (l : List Nat) :
    (l.map fun k => Ev.awaitDone (f k)).filterMap awaitId = l.map f := by
  induction l with
  | nil => rfl
  | cons a t ih => simp [awaitId, ih]

lemma filterMap_dispatchId_report :
    ([Ev.report] : List Ev).filterMap dispatchId = [] := rfl

lemma filterMap_awaitId_report :
    ([Ev.report] : List Ev).filterMap awaitId = [] := rfl

lemma takeWhile_append_of_all {p : Ev → Bool} {xs : List Ev} (ys : List Ev)
    (h : ∀ x ∈ xs, p x = true) :
    (xs ++ ys).takeWhile p = xs ++ ys.takeWhile p := by
  induction xs with
  | nil => simp
  | cons a t ih =>
      have ha : p a = true := h a (List.mem_cons_self a t)
      simp only [List.cons_append, List.takeWhile_cons, ha, if_true]
      rw [ih fun x hx => h x (List.mem_cons_of_mem a hx)]

lemma takeWhile_report :
    (([Ev.report] : List Ev).takeWhile fun e => decide (e ≠ Ev.report)) = [] := by
  decide

lemma ev_dispatch_ne_report (i : Nat) :
    (decide (Ev.dispatch i ≠ Ev.report)) = true := by
  simp

lemma ev_await_ne_report (i : Nat) :
    (decide (Ev.awaitDone i ≠ Ev.report)) = true := by
  simp

lemma map_dispatch_ne_report (l : List Nat) :
    ∀ x ∈ l.map Ev.dispatch, (decide (x ≠ Ev.report)) = true := by
  intro x hx
  obtain ⟨i, _, rfl⟩ := List.mem_map.mp hx
  exact ev_dispatch_ne_report i

lemma map_await_ne_report (l : List Nat) :
    ∀ x ∈ l.map Ev.awaitDone, (decide (x ≠ Ev.report)) = true := by
  intro x hx
  obtain ⟨i, _, rfl⟩ := List.mem_map.mp hx
  exact ev_await_ne_report i

lemma tickEvents_ne_report (off c : Nat) :
    ∀ x ∈ tickEvents off c, (decide (x ≠ Ev.report)) = true := by
  intro x hx
  rcases List.mem_append.mp hx with h | h
  · obtain ⟨i, _, rfl⟩ := List.mem_map.mp h
    exact ev_dispatch_ne_report _
  · obtain ⟨i, _, rfl⟩ := List.mem_map.mp h
    exact ev_await_ne_report _

lemma ddosTrace_dispatched (ticks rps : Nat) :
    dispatchedIds (ddosTrace ticks rps) =
      List.range (ddosRequestCount ticks rps) := by
  rw [dispatchedIds, ddosTrace, List.filterMap_append, List.filterMap_append,
    filterMap_dispatchId_map_dispatch, filterMap_dispatchId_map_await,
    filterMap_dispatchId_report, List.append_nil, List.append_nil]

lemma ddosTrace_resolved (ticks rps : Nat) :
    resolvedBeforeReport (ddosTrace ticks rps) =
      List.range (ddosRequestCount ticks rps) := by
  rw [resolvedBeforeReport, ddosTrace, List.append_assoc,
    takeWhile_append_of_all _ (map_dispatch_ne_report _),
    takeWhile_append_of_all _ (map_await_ne_report _),
    takeWhile_report, List.append_nil, List.filterMap_append,
    filterMap_awaitId_map_dispatch, filterMap_awaitId_map_await,
    List.nil_append]

lemma barrierAux_drains (cs : List Nat) (off : Nat) :
    ∀ i ∈ dispatchedIds (barrierTraceAux off cs),
      i ∈ resolvedBeforeReport (barrierTraceAux off cs) := by
  induction cs generalizing off with
  | nil =>
      intro i hi
      rw [show barrierTraceAux off [] = [Ev.report] from rfl, dispatchedIds,
        filterMap_dispatchId_report] at hi
      exact absurd hi (List.not_mem_nil i)
  | cons c cs ih =>
      intro i hi
      have hsplit : barrierTraceAux off (c :: cs) =
          tickEvents off c ++ barrierTraceAux (off + c) cs := rfl
      rw [hsplit] at hi ⊢
      rw [resolvedBeforeReport,
        takeWhile_append_of_all _ (tickEvents_ne_report off c),
        List.filterMap_append]
      rw [dispatchedIds, List.filterMap_append] at hi
      rcases List.mem_append.mp hi with h | h
      · refine List.mem_append.mpr (Or.inl ?_)
        rw [tickEvents, List.filterMap_append, filterMap_dispatchId_map_f,
          filterMap_dispatchId_map_af, List.append_nil] at h
        rw [tickEvents, List.filterMap_append, filterMap_awaitId_map_df,
          filterMap_awaitId_map_f, List.nil_append]
        exact h
      · refine List.mem_append.mpr (Or.inr ?_)
        have := ih (off + c) i h
        rwa [resolvedBeforeReport] at this

/-- C2 (amended): the DDoS, Burst, Random and Database strategies await
every request they dispatched before printing the final report (DDoS in
one final gather, the others at a per-tick barrier); the Sustained
strategy does not — any run of it that dispatches at least one request
prints its report with dispatched requests unresolved. -/
theorem c2_drain_before_report_except_sustained :
    (∀ ticks rps, drainsBeforeReport (ddosTrace ticks rps)) ∧
    (∀ counts : List Nat, drainsBeforeReport (barrierTrace counts)) ∧
    (∀ n : Nat, 1 ≤ n → ¬ drainsBeforeReport (sustainedTrace n)) := by
  refine ⟨?_, ?_, ?_⟩
  · intro ticks rps i hi
    rw [ddosTrace_resolved]
    rw [ddosTrace_dispatched] at hi
    exact hi
  · intro counts
    exact barrierAux_drains counts 0
  · intro n hn hdrain
    have h0 : 0 ∈ dispatchedIds (sustainedTrace n) := by
      rw [dispatchedIds, sustainedTrace, List.filterMap_append,
        filterMap_dispatchId_map_dispatch, filterMap_dispatchId_report,
        List.append_nil]
      exact List.mem_range.mpr (by omega)
    have hres : resolvedBeforeReport (sustainedTrace n) = [] := by
      rw [resolvedBeforeReport, sustainedTrace,
        takeWhile_append_of_all _ (map_dispatch_ne_report _),
        takeWhile_report, List.append_nil, filterMap_awaitId_map_dispatch]
    have := hdrain 0 h0
    rw [hres] at this
    exact (List.not_mem_nil 0) this

/-- C2 counterexample: a Sustained run that dispatches a single request
prints its report without awaiting it. -/
theorem c2_counterexample : ¬ drainsBeforeReport (sustainedTrace 1) := by
  intro h
  have h0 : 0 ∈ dispatchedIds (sustainedTrace 1) := by decide
  have hmem := h 0 h0
  revert hmem
  decide

/-- C2 witness: the amended statement instantiated at a Sustained run of
three dispatched requests. -/
theorem c2_witness : ¬ drainsBeforeReport (sustainedTrace 3) :=
  c2_drain_before_report_except_sustained.2.2 3 (by decide)

end MachineGun
